import Mathlib

/-!
Verification of the PN532 NFC reader component (frame transport, MIFARE
Classic sector access, tag lifecycle, detection loop) against its
natural-language specification.  The C++ sources are shallowly embedded:
byte vectors become `List Nat` (each entry a value below 256), machine
arithmetic carries explicit `% 256`, and I/O results (block reads, block
writes, sector authentications) are passed in as explicit oracles.
-/

namespace PN532

/-- Byte-vector indexing `operator[]`: the byte at index `i`, defaulting
to 0 when the index is out of range (paths that depend on the default
are flagged separately as out-of-bounds accesses). -/
def nth (l : List Nat) (i : Nat) : Nat := (l.get? i).getD 0

/-- Model of `vector::insert(begin() + i, v)`. -/
def insertAt (l : List Nat) (i : Nat) (v : Nat) : List Nat :=
  l.take i ++ v :: l.drop i

/-- Model of `vector::resize(n, v)`: truncate to `n` elements or pad
with `v`. -/
def listResize (l : List Nat) (n : Nat) (v : Nat) : List Nat :=
  if n ≤ l.length then l.take n else l ++ List.replicate (n - l.length) v

/-- Byte-wise accumulation `uint8_t c; for (b : l) c += b;` starting at `a`. -/
def byteSum (a : Nat) (l : List Nat) : Nat :=
  List.foldl (fun c d => (c + d) % 256) (a % 256) l

/-- Two's complement of a byte: `(uint8_t)(~x + 1)`. -/
def twosComplement (x : Nat) : Nat := (256 - x % 256) % 256

/-- Model of `PN532::write_command_` (pn532.cpp:200-231): the outbound frame built
for a command payload `data`: preamble 0x00, start code 0x00 0xFF, LEN
(= payload size + 1 as a byte), LCS, TFI 0xD4, payload, DCS, postamble. -/
def write_command_frame (data : List Nat) : List Nat :=
  let real_length := (data.length + 1) % 256
  let lcs := twosComplement real_length
  let dcs := twosComplement (byteSum 0xD4 data)
  [0x00, 0x00, 0xFF, real_length, lcs, 0xD4] ++ data ++ [dcs, 0x00]

/-- Model of `PN532::read_response_length_` (pn532.cpp:306-335) applied to the
byte stream `buf` delivered by `read_data` (a leading transport status
byte followed by the frame, as witnessed by the 1-based indexing of every
consumer of `read_data`).  Returns 0 on any validation failure.  Note the
preamble test faithfully reproduces the source's `&&` combination: the
frame is rejected only when all three bytes deviate. -/
def read_response_length (buf : List Nat) : Nat :=
  if buf.length < 7 then 0
  else
    let data := buf.take 7
    if nth data 1 ≠ 0x00 ∧ nth data 2 ≠ 0x00 ∧ nth data 3 ≠ 0xFF then 0
    else if ¬((nth data 4 + nth data 5) % 256 = 0 ∧ nth data 6 = 0xD5) then 0
    else
      let full_len := nth data 4
      if full_len = 0 then 0 else full_len - 1

/-- Model of `PN532::read_response_` (pn532.cpp:253-304) applied to the byte
stream `buf` (status byte then frame; after the length probe's NACK the
device retransmits the identical frame, so both reads see the same
stream).  Returns the unwrapped payload, or `none` on any validation
failure.  The preamble test keeps the source's `&&` combination. -/
def read_response (command : Nat) (buf : List Nat) : Option (List Nat) :=
  let len := read_response_length buf
  if len = 0 then none
  else if buf.length < 6 + len + 2 + 1 then none
  else
    let data := buf.take (6 + len + 2 + 1)
    if nth data 1 ≠ 0x00 ∧ nth data 2 ≠ 0x00 ∧ nth data 3 ≠ 0xFF then none
    else if ¬((nth data 4 + nth data 5) % 256 = 0 ∧ nth data 6 = 0xD5 ∧
              nth data 7 = command + 1) then none
    else
      let d := data.drop 6
      let checksum := twosComplement (byteSum 0 (d.take (len + 1)))
      if nth d (len + 1) ≠ checksum then none
      else if nth d (len + 2) ≠ 0x00 then none
      else some ((d.drop 2).take (len - 1))

/-- The data checksum of a device→host frame for command echo and payload. -/
def response_dcs (command : Nat) (p : List Nat) : Nat :=
  twosComplement (byteSum 0xD5 ((command + 1) % 256 :: p))

/-- Modelled from the spec: the device→host response frame (spec §3
"Frame": direction byte 0xD5 device→host, command echo
`expected_command + 1`, and the same length/checksum framing rules used
by the outbound builder).  The device itself is outside the repository;
this is the frame it sends in reply to `command` with payload `p`. -/
def response_frame (command : Nat) (p : List Nat) : List Nat :=
  let full_len := (p.length + 2) % 256
  let lcs := twosComplement full_len
  [0x00, 0x00, 0xFF, full_len, lcs, 0xD5, (command + 1) % 256] ++ p ++
    [response_dcs command p, 0x00]

/-! ## Detection loop (pn532.cpp:95-198) -/

/-- The `same_uid` accumulation of `PN532::loop` (pn532.cpp:134-136):
`bool same_uid = false; for (i) same_uid |= nfcid[i] == current_uid_[i];`. -/
def same_uid (nfcid current : List Nat) : Bool :=
  (List.range nfcid.length).foldl
    (fun s i => s || decide (nth nfcid i = nth current i)) false

/-- The suppression decision of `PN532::loop` (pn532.cpp:133-139): the
freshly read UID is dropped (no processing, `current_uid_` unchanged)
exactly when this returns `true`. -/
def loop_suppresses (nfcid current : List Nat) : Bool :=
  if nfcid.length = current.length then same_uid nfcid current else false

/-- The indices of the response buffer accessed by `PN532::loop`
(pn532.cpp:111-120) before the size guard at line 121, in access order:
the target count at 0, then (when it equals 1) the UID length at 5 and
the UID bytes at 6 .. 6+length-1 (the `nfcid` vector is constructed at
line 120, before the guard). -/
def loop_accesses (read : List Nat) : List Nat :=
  0 :: (if nth read 0 ≠ 1 then []
        else 5 :: (List.range (nth read 5)).map (fun i => 6 + i))

/-! ## MIFARE Classic block arithmetic and external NFC helpers -/

/-- Modelled from the spec: `nfc::mifare_classic_is_trailer_block` (the
helper lives outside this repository); spec §3: "every 4th block
(numbers ≡ 3 mod 4) is a trailer block". -/
def mifare_classic_is_trailer_block (block : Nat) : Bool := block % 4 = 3

/-- Modelled from the spec: `nfc::mifare_classic_is_first_block`; spec
§4.2: "`is_first_block_of_sector(n)` true when `n mod 4 == 0`". -/
def mifare_classic_is_first_block (block : Nat) : Bool := block % 4 = 0

/-- The block-advance step shared by the multi-block read and write
loops (pn532.cpp:387-391, 483-488; pn532_mifare_classic.cpp:47-51,
246-251): `current_block++` on a `uint8_t`, then skip once more when the
result is a trailer block. -/
def block_advance (block : Nat) : Nat :=
  let b := (block + 1) % 256
  if mifare_classic_is_trailer_block b then (b + 1) % 256 else b

/-- The block targeted by the i-th iteration of a loop starting at
block 4 and advancing with `block_advance`. -/
def blockSeq (i : Nat) : Nat := block_advance^[i] 4

/-- Modelled from the spec: `nfc::get_mifare_classic_buffer_size` (the
helper lives outside this repository); spec §4.3/§8: the total block
span for a declared message length, rounded up to whole 16-byte blocks
(a 300-byte message spans 304 buffer bytes, i.e. ceil(304/16) blocks). -/
def get_mifare_classic_buffer_size (message_length : Nat) : Nat :=
  if message_length % 16 ≠ 0 ∨ message_length = 0
  then (message_length / 16 + 1) * 16 else message_length

/-- Modelled from the spec: `nfc::decode_mifare_classic_tlv` (the helper
lives outside this repository); spec §3 "TLV envelope" and §4.3: parse
the leading TLV header of a block — type byte 0x03, then either a 1-byte
length (below 255) giving payload start offset 2, or the extended form
0xFF followed by a 2-byte big-endian length giving start offset 4.
Returns (declared message length, payload start offset), or `none` when
the header is malformed. -/
def decode_mifare_classic_tlv (data : List Nat) : Option (Nat × Nat) :=
  if data.length < 2 then none
  else if nth data 0 ≠ 0x03 then none
  else if nth data 1 = 0xFF then
    if data.length < 4 then none
    else some (nth data 2 * 256 + nth data 3, 4)
  else some (nth data 1, 2)

/-! ## TLV framing of outbound NDEF messages -/

/-- The TLV framing performed by `PN532::write_tag_` (pn532.cpp:452-465)
on the encoded NDEF message.  Each `vector::insert` argument is
evaluated after the preceding inserts, so `encoded.size()` has already
grown when it is stored: the short form stores size+1, and the extended
form stores the low byte of size+3 at index 2 and the high byte of
size+2 at index 3. -/
def write_tag_buffer (encoded : List Nat) : List Nat :=
  if encoded.length < 255 then
    let e1 := insertAt encoded 0 0x03
    let e2 := insertAt e1 1 (e1.length % 256)
    e2 ++ [0xFE]
  else
    let e1 := insertAt encoded 0 0x03
    let e2 := insertAt e1 1 0xFF
    let e3 := insertAt e2 2 ((e2.length >>> 8) % 256)
    let e4 := insertAt e3 2 (e3.length % 256)
    e4 ++ [0xFE]

/-- The block buffer prepared by `PN532::write_mifare_classic_tag_`
(pn532_mifare_classic.cpp:213-229): the message length is captured
before framing, the TLV header and 0xFE terminator are added, and the
result is resized (truncated or zero-padded) to
`get_mifare_classic_buffer_size(message_length)`. -/
def write_mifare_classic_tag_buffer (msg : List Nat) : List Nat :=
  let message_length := msg.length
  let buffer_length := get_mifare_classic_buffer_size message_length
  let e1 := insertAt msg 0 0x03
  let e2 :=
    if message_length < 255 then insertAt e1 1 (message_length % 256)
    else insertAt (insertAt (insertAt e1 1 0xFF)
           2 ((message_length >>> 8) % 256)) 3 (message_length % 256)
  listResize (e2 ++ [0xFE]) buffer_length 0

/-- The TLV framing the claim describes, stated from the spec's words
(spec §3 "TLV envelope" / §4.3 "write"): type 0x03, a 1-byte length when
the encoded size is below 255 and otherwise 0xFF plus the 2-byte
big-endian encoded size, then the message, then terminator 0xFE. -/
def spec_tlv_framed (msg : List Nat) : List Nat :=
  0x03 :: (if msg.length < 255 then [msg.length]
           else [0xFF, (msg.length >>> 8) % 256, msg.length % 256])
    ++ msg ++ [0xFE]

/-! ## Multi-block read and write loops -/

/-- The list `[s, s+1, ..., s+n-1]`. -/
def idxList (s n : Nat) : List Nat :=
  match n with
  | 0 => []
  | n + 1 => s :: idxList (s + 1) n

/-- The multi-block read loop of `PN532::read_tag_` (pn532.cpp:373-392)
and `PN532::read_mifare_classic_tag_` (pn532_mifare_classic.cpp:33-52).
`reads k` is the outcome of the k-th `read_mifare_classic_block_` call
(`none` = failure).  A failed read only skips the append (the loop's
sector authentications merely log on failure and never alter control
flow, so they do not appear).  Returns the accumulated buffer. -/
def read_loop (reads : Nat → Option (List Nat)) (buffer_size : Nat)
    (index k : Nat) (buffer : List Nat) : List Nat :=
  if h : index < buffer_size then
    let buffer' := match reads k with
      | some d => buffer ++ d
      | none => buffer
    read_loop reads buffer_size (index + 16) (k + 1) buffer'
  else buffer
termination_by buffer_size - index
decreasing_by simp_wf; omega

/-- The multi-block write loop of `PN532::write_mifare_classic_tag_`
(pn532_mifare_classic.cpp:234-252) (the loop of `PN532::write_tag_`,
pn532.cpp:470-489, has the same structure).  `authOk i` / `writeOk i`
are the outcomes of the i-th iteration's sector authentication and
block write.  Returns whether the loop completed, together with the
blocks successfully written, in order. -/
def write_loop (authOk writeOk : Nat → Bool) (buffer_length : Nat)
    (index block i : Nat) (written : List Nat) : Bool × List Nat :=
  if _h : index < buffer_length then
    if mifare_classic_is_first_block block ∧ authOk i = false then
      (false, written)
    else if writeOk i = false then (false, written)
    else write_loop authOk writeOk buffer_length (index + 16)
      (block_advance block) (i + 1) (written ++ [block])
  else (true, written)
termination_by buffer_length - index
decreasing_by simp_wf; omega

/-- One loop iteration succeeds: the sector authentication (when the
iteration's block starts a sector) and the block write both succeed. -/
def iterOk (authOk writeOk : Nat → Bool) (i : Nat) : Bool :=
  (if mifare_classic_is_first_block (blockSeq i) then authOk i else true)
    && writeOk i

/-! ## Tag read control flow -/

/-- Tag classification constants `nfc::MIFARE_CLASSIC` / `nfc::ERROR`. -/
inductive TagType where
  | mifareClassic : TagType
  | errorTag : TagType
  deriving DecidableEq, Repr

/-- Model of `nfc::NfcTag` as far as the read paths populate it: UID, type tag,
and an optional payload buffer. -/
structure NfcTag where
  uid : List Nat
  tag_type : TagType
  payload : Option (List Nat)
  deriving DecidableEq, Repr

/-- The MIFARE Classic branch of `PN532::read_tag_` (pn532.cpp:346-394).
`auth4` is the outcome of the block-4 sector authentication, `read4` the
vector returned by the initial `read_mifare_classic_block_(4)` (empty =
failure, by the call site's own `data.empty()` test), and `reads` the
per-call outcomes of the block reads inside the loop. -/
def read_tag (uid : List Nat) (auth4 : Bool) (read4 : List Nat)
    (reads : Nat → Option (List Nat)) : NfcTag :=
  if auth4 = false then ⟨uid, .mifareClassic, none⟩
  else if read4 = [] then ⟨uid, .mifareClassic, none⟩
  else
    match decode_mifare_classic_tlv read4 with
    | none => ⟨uid, .errorTag, none⟩
    | some (message_length, message_start_index) =>
      let buffer :=
        read_loop reads (get_mifare_classic_buffer_size message_length) 0 0 []
      ⟨uid, .mifareClassic, some (buffer.drop message_start_index)⟩

/-- Model of `PN532::read_mifare_classic_tag_` (pn532_mifare_classic.cpp:9-55).
Here the initial block read is the two-argument overload: `read4ok` is
its boolean result and `data4` the contents of its out-parameter after
the call.  The source tests `!read_mifare_classic_block_(...)`, so the
TLV decode runs on the failure branch and the success branch returns a
payload-less tag. -/
def read_mifare_classic_tag (uid : List Nat) (auth4 : Bool) (read4ok : Bool)
    (data4 : List Nat) (reads : Nat → Option (List Nat)) : NfcTag :=
  if auth4 = false then ⟨uid, .mifareClassic, none⟩
  else if read4ok = true then ⟨uid, .mifareClassic, none⟩
  else
    match decode_mifare_classic_tlv data4 with
    | none => ⟨uid, .errorTag, none⟩
    | some (message_length, message_start_index) =>
      let buffer :=
        read_loop reads (get_mifare_classic_buffer_size message_length) 0 0 []
      ⟨uid, .mifareClassic, some (buffer.drop message_start_index)⟩

/-! ## Helper lemmas -/

theorem byteSum_eq (l : List Nat) : ∀ a, byteSum a l = (a + l.sum) % 256 := by
  induction l with
  | nil => intro a; simp [byteSum]
  | cons d t ih =>
    intro a
    have h1 : byteSum a (d :: t) = byteSum (a % 256 + d) t := by
      simp [byteSum, Nat.mod_mod_of_dvd]
    rw [h1, ih]
    simp [List.sum_cons, Nat.add_mod_left]
    omega

theorem read_loop_join (reads : Nat → Option (List Nat)) (bsize : Nat) :
    ∀ index k buffer, read_loop reads bsize index k buffer =
      buffer ++
        ((idxList k ((bsize - index + 15) / 16)).map
          (fun j => (reads j).getD [])).flatten := by
  have H : ∀ d index k buffer, bsize - index ≤ d →
      read_loop reads bsize index k buffer =
        buffer ++
          ((idxList k ((bsize - index + 15) / 16)).map
            (fun j => (reads j).getD [])).flatten := by
    intro d
    induction d with
    | zero =>
      intro index k buffer h0
      have hge : ¬ index < bsize := by omega
      have hc : (bsize - index + 15) / 16 = 0 := by omega
      rw [read_loop, dif_neg hge, hc]
      simp [idxList]
    | succ d ih =>
      intro index k buffer h
      by_cases hlt : index < bsize
      · rw [read_loop, dif_pos hlt]
        have hstep : (bsize - index + 15) / 16 =
            (bsize - (index + 16) + 15) / 16 + 1 := by omega
        rw [ih (index + 16) (k + 1) _ (by omega), hstep]
        simp only [idxList, List.map_cons, List.flatten]
        cases hr : reads k with
        | none => simp [hr, List.append_assoc]
        | some dd => simp [hr, List.append_assoc]
      · have hc : (bsize - index + 15) / 16 = 0 := by omega
        rw [read_loop, dif_neg hlt, hc]
        simp [idxList]
  intro index k buffer
  exact H (bsize - index) index k buffer le_rfl

theorem write_loop_fail_aux (authOk writeOk : Nat → Bool) (blen : Nat) :
    ∀ d i written, 16 * (i + d) < blen →
      (∀ e, e < d → iterOk authOk writeOk (i + e) = true) →
      iterOk authOk writeOk (i + d) = false →
      write_loop authOk writeOk blen (16 * i) (blockSeq i) i written =
        (false, written ++ (idxList i d).map blockSeq) := by
  intro d
  induction d with
  | zero =>
    intro i written hlt _ hfail
    rw [Nat.add_zero] at hfail
    rw [write_loop, dif_pos (by omega : 16 * i < blen)]
    cases hfb : mifare_classic_is_first_block (blockSeq i) <;>
      cases hauth : authOk i <;> cases hw : writeOk i <;>
        simp_all [iterOk, idxList]
  | succ d ih =>
    intro i written hlt hpre hfail
    have hok : iterOk authOk writeOk i = true := by
      have := hpre 0 (by omega)
      simpa using this
    have hok' : (if mifare_classic_is_first_block (blockSeq i)
        then authOk i else true) = true ∧ writeOk i = true := by
      simpa [iterOk, Bool.and_eq_true] using hok
    rw [write_loop, dif_pos (by omega : 16 * i < blen)]
    rw [if_neg (by
      rintro ⟨h1, h2⟩
      have hx := hok'.1
      rw [if_pos h1] at hx
      rw [hx] at h2
      exact absurd h2 (by simp))]
    rw [if_neg (by simp [hok'.2])]
    have harg1 : 16 * i + 16 = 16 * (i + 1) := by ring
    have harg2 : block_advance (blockSeq i) = blockSeq (i + 1) := by
      rw [blockSeq, blockSeq, Function.iterate_succ_apply']
    rw [harg1, harg2]
    rw [ih (i + 1) (written ++ [blockSeq i]) (by omega)
      (fun e he => by
        have := hpre (e + 1) (by omega)
        simpa [Nat.add_assoc, Nat.add_comm 1 e] using this)
      (by
        have : i + 1 + d = i + (d + 1) := by omega
        rw [this]; exact hfail)]
    simp [idxList, List.append_assoc]

theorem decode_tlv_start_le (d : List Nat) (L msi : Nat)
    (h : decode_mifare_classic_tlv d = some (L, msi)) : msi ≤ 4 := by
  unfold decode_mifare_classic_tlv at h
  split at h
  · exact absurd h (by simp)
  · split at h
    · exact absurd h (by simp)
    · split at h
      · split at h
        · exact absurd h (by simp)
        · injection h with h'
          cases h'
          omega
      · injection h with h'
        cases h'
        omega

theorem buffer_size_ge_16 (L : Nat) : 16 ≤ get_mifare_classic_buffer_size L := by
  unfold get_mifare_classic_buffer_size
  split
  · omega
  · rename_i h
    push_neg at h
    omega

/-! ## Claim theorems -/

set_option maxRecDepth 8000 in
/-- C1: the TLV framing of outbound NDEF messages diverges from the
claimed format.  For an encoded message of 300 bytes, `write_tag_`
(pn532.cpp) emits header bytes 0x03 0xFF 0x2F 0x01 — the low byte of
size+3 before the high byte of size+2 — instead of the claimed
big-endian 0x03 0xFF 0x01 0x2C, and for a 16-byte message it emits a
short length byte of 17 instead of 16; `write_mifare_classic_tag_`
(pn532_mifare_classic.cpp) emits the claimed header but then resizes the
framed buffer to `get_mifare_classic_buffer_size(300) = 304` bytes,
truncating the 0xFE terminator (and for a 16-byte message, truncating
the terminator and the last two message bytes). -/
theorem c1_tlv_write_divergence :
    (write_tag_buffer (List.replicate 300 1)).take 4 = [0x03, 0xFF, 0x2F, 0x01] ∧
    (spec_tlv_framed (List.replicate 300 1)).take 4 = [0x03, 0xFF, 0x01, 0x2C] ∧
    write_tag_buffer (List.replicate 300 1) ≠ spec_tlv_framed (List.replicate 300 1) ∧
    (write_tag_buffer (List.replicate 16 2)).take 2 = [0x03, 17] ∧
    (spec_tlv_framed (List.replicate 16 2)).take 2 = [0x03, 16] ∧
    (write_mifare_classic_tag_buffer (List.replicate 300 1)).take 4 =
      [0x03, 0xFF, 0x01, 0x2C] ∧
    (write_mifare_classic_tag_buffer (List.replicate 300 1)).length = 304 ∧
    0xFE ∉ write_mifare_classic_tag_buffer (List.replicate 300 1) ∧
    0xFE ∉ write_mifare_classic_tag_buffer (List.replicate 16 2) := by
  decide

/-- C2: the detection loop's UID debounce suppresses any same-length UID
that matches the stored one in at least one byte position, because the
accumulation at pn532.cpp:136 uses `|=`: the new UID
[0x04,0x01,0x02,0x03] differs from the stored [0x04,0x09,0x09,0x09] yet
is suppressed.  (An identical UID is still suppressed, so a tag seen in
two consecutive cycles is processed once.) -/
theorem c2_uid_debounce_divergence :
    loop_suppresses [0x04, 0x01, 0x02, 0x03] [0x04, 0x09, 0x09, 0x09] = true ∧
    [0x04, 0x01, 0x02, 0x03] ≠ [0x04, 0x09, 0x09, 0x09] ∧
    loop_suppresses [0x04, 0x01, 0x02, 0x03] [0x04, 0x01, 0x02, 0x03] = true := by
  decide

/-- C4: `read_mifare_classic_tag_` inverts the result of the block-4
read: when authentication and the block read both succeed on a block
whose TLV header is valid, it returns a payload-less MIFARE-Classic tag
without parsing the TLV header, and when the read fails (out parameter
left empty) it runs the TLV decode on the empty buffer and returns an
error-classified tag instead of the claimed payload-less classified
tag.  The sibling `read_tag_` in pn532.cpp implements the claimed
branching: auth failure and read failure yield a classified payload-less
tag, and a TLV parse failure yields the error-classified tag. -/
theorem c4_read_block4_inverted :
    read_mifare_classic_tag [4, 1, 2, 3] true true
        (0x03 :: 0x05 :: List.replicate 14 0) (fun _ => none) =
      ⟨[4, 1, 2, 3], .mifareClassic, none⟩ ∧
    (decode_mifare_classic_tlv (0x03 :: 0x05 :: List.replicate 14 0)).isSome = true ∧
    read_mifare_classic_tag [4, 1, 2, 3] true false [] (fun _ => none) =
      ⟨[4, 1, 2, 3], .errorTag, none⟩ ∧
    read_tag [4, 1, 2, 3] false [] (fun _ => none) =
      ⟨[4, 1, 2, 3], .mifareClassic, none⟩ ∧
    read_tag [4, 1, 2, 3] true [] (fun _ => none) =
      ⟨[4, 1, 2, 3], .mifareClassic, none⟩ ∧
    read_tag [4, 1, 2, 3] true (List.replicate 16 0) (fun _ => none) =
      ⟨[4, 1, 2, 3], .errorTag, none⟩ := by
  refine ⟨rfl, by decide, rfl, rfl, rfl, rfl⟩

/-- C5: a deviation in a single preamble/start-code byte is accepted,
not rejected: corrupting any one of the three bytes (frame positions 0,
1, 2 — buffer positions 1, 2, 3) of an otherwise valid response frame to
0x42 still makes the length probe return a non-zero length and the
response parser return the payload, because the checks at pn532.cpp:266
and 312 combine the three comparisons with `&&` and so reject only when
all three bytes deviate. -/
theorem c5_preamble_single_deviation_accepted :
    read_response_length (0 :: (response_frame 0x4A [0, 1, 2, 3]).set 0 0x42) = 5 ∧
    read_response 0x4A (0 :: (response_frame 0x4A [0, 1, 2, 3]).set 0 0x42) =
      some [0, 1, 2, 3] ∧
    read_response 0x4A (0 :: (response_frame 0x4A [0, 1, 2, 3]).set 1 0x42) =
      some [0, 1, 2, 3] ∧
    read_response 0x4A (0 :: (response_frame 0x4A [0, 1, 2, 3]).set 2 0x42) =
      some [0, 1, 2, 3] ∧
    nth (0 :: (response_frame 0x4A [0, 1, 2, 3]).set 0 0x42) 1 ≠ 0x00 := by
  decide

/-- C9: the detection loop reads the UID bytes before the size guard: a
successfully parsed list-passive-target payload of 6 bytes declaring a
4-byte UID (target count 1 at index 0, UID length 4 at index 5) makes
the loop access indices 6, 7, 8, 9 — all out of the 6-byte buffer's
bounds — at pn532.cpp:120, before the size check at line 121 fires. -/
theorem c9_uid_read_before_guard :
    read_response 0x4A (0 :: response_frame 0x4A [1, 0, 0, 0, 0, 4]) =
      some [1, 0, 0, 0, 0, 4] ∧
    loop_accesses [1, 0, 0, 0, 0, 4] = [0, 5, 6, 7, 8, 9] ∧
    ([1, 0, 0, 0, 0, 4] : List Nat).length ≤ 9 ∧
    9 ∈ loop_accesses [1, 0, 0, 0, 0, 4] := by
  decide

/-- C3 (counterexample): the response parser does not recover the
payload from the frame the outbound builder constructs: with or without
the transport status byte in front, parsing the constructed frame for
payload [0x02] fails (the builder stamps direction byte 0xD4 while the
parser demands 0xD5, and the two sides read the length field at
different offsets). -/
theorem c3_command_frame_not_parsed :
    read_response 0x02 (write_command_frame [0x02]) = none ∧
    read_response 0x02 (0x01 :: write_command_frame [0x02]) = none := by
  decide

set_option maxRecDepth 8000 in
/-- C6 (counterexample): for a 255-byte payload the frame's length field
is (255+1) mod 256 = 0, not the claimed payload length plus one. -/
theorem c6_length_field_wraps :
    nth (write_command_frame (List.replicate 255 0)) 3 = 0 ∧
    nth (write_command_frame (List.replicate 255 0)) 3 ≠
      (List.replicate 255 0).length + 1 := by
  decide

/-- The last element of a list extended by two elements. -/
theorem getLast?_concat_two (l : List Nat) (x y : Nat) :
    (l ++ [x, y]).getLast? = some y := by
  induction l with
  | nil => rfl
  | cons a t ih =>
    rw [List.cons_append]
    cases h : t ++ [x, y] with
    | nil => exact absurd h (by simp)
    | cons b u =>
      rw [h] at ih
      rw [List.getLast?_cons_cons]
      exact ih

/-- The element just past a list, in a two-element extension. -/
theorem nth_append_self (l : List Nat) (x y : Nat) :
    nth (l ++ [x, y]) l.length = x := by
  induction l with
  | nil => rfl
  | cons a t ih => exact ih

/-- C7: the block-advance rule (increment, then skip when landing on a
block ≡ 3 mod 4), iterated from block 4, never yields a trailer block;
the generated sequence begins 4, 5, 6, 8, 9, 10, 12, 13 (7 and 11 are
skipped). -/
theorem c7_block_advance_never_trailer :
    (∀ n : Nat, mifare_classic_is_trailer_block (blockSeq n) = false ∧
      blockSeq n % 4 ≠ 3) ∧
    (List.range 8).map blockSeq = [4, 5, 6, 8, 9, 10, 12, 13] := by
  constructor
  · have key : ∀ b, b % 4 ≠ 3 → block_advance b % 4 ≠ 3 := by
      intro b hb
      have h1 : (b + 1) % 256 % 4 = (b + 1) % 4 :=
        Nat.mod_mod_of_dvd _ (by norm_num)
      by_cases h : (b + 1) % 256 % 4 = 3
      · have h2 : ((b + 1) % 256 + 1) % 256 % 4 = ((b + 1) % 256 + 1) % 4 :=
          Nat.mod_mod_of_dvd _ (by norm_num)
        simp only [block_advance, mifare_classic_is_trailer_block]
        rw [if_pos (by simpa using h)]
        omega
      · simp only [block_advance, mifare_classic_is_trailer_block]
        rw [if_neg (by simpa using h)]
        exact h
    intro n
    induction n with
    | zero => exact ⟨by decide, by decide⟩
    | succ n ih =>
      have hs : blockSeq (n + 1) = block_advance (blockSeq n) := by
        rw [blockSeq, blockSeq, Function.iterate_succ_apply']
      have h4 := key _ ih.2
      rw [hs]
      exact ⟨by simp [mifare_classic_is_trailer_block, h4], h4⟩
  · decide

/-- C8: failure semantics of the multi-block loops.  The read loop's
result is exactly the concatenation of the successful reads over the
full computed span — a failed block read only omits that block's bytes
and iteration continues, regardless of which reads fail.  The write
loop, when every iteration before `j` succeeds and iteration `j` (a
failed sector authentication or a failed block write) fails, returns
failure immediately with exactly the blocks of the iterations before `j`
written and none after. -/
theorem c8_loop_failure_semantics :
    (∀ (reads : Nat → Option (List Nat)) (bsize : Nat),
      read_loop reads bsize 0 0 [] =
        ((idxList 0 ((bsize + 15) / 16)).map
          (fun k => (reads k).getD [])).flatten) ∧
    (∀ (authOk writeOk : Nat → Bool) (blen j : Nat), 16 * j < blen →
      (∀ e, e < j → iterOk authOk writeOk e = true) →
      iterOk authOk writeOk j = false →
      write_loop authOk writeOk blen 0 4 0 [] =
        (false, (idxList 0 j).map blockSeq)) := by
  constructor
  · intro reads bsize
    have h := read_loop_join reads bsize 0 0 []
    simpa using h
  · intro authOk writeOk blen j h1 h2 h3
    have h := write_loop_fail_aux authOk writeOk blen j 0 [] (by omega)
      (fun e he => by simpa using h2 e he) (by simpa using h3)
    simpa [blockSeq] using h

/-- C8 witness: a 3-block read whose middle block read fails yields the
two successful blocks; a 3-block write whose second block write fails
aborts with only block 4 written. -/
theorem c8_loop_failure_semantics_witness :
    read_loop (fun k => if k = 1 then none else some (List.replicate 16 7))
        48 0 0 [] = List.replicate 16 7 ++ List.replicate 16 7 ∧
    write_loop (fun _ => true) (fun i => decide (i ≠ 1)) 48 0 4 0 [] =
      (false, [4]) := by
  constructor
  · rw [c8_loop_failure_semantics.1]
    decide
  · rw [c8_loop_failure_semantics.2 (fun _ => true) (fun i => decide (i ≠ 1))
      48 1 (by omega) (by decide) (by decide)]
    decide

/-- C10 (counterexample): when every block read in the loop fails, the
accumulated buffer is empty and its length falls below the
message-start-index obtained from a well-formed TLV header (here 2), so
the trim of the leading `message_start_index` bytes is out of range. -/
theorem c10_trim_out_of_range :
    decode_mifare_classic_tlv (0x03 :: 0x05 :: List.replicate 14 0) = some (5, 2) ∧
    (read_loop (fun _ => none) (get_mifare_classic_buffer_size 5) 0 0 []).length < 2 := by
  refine ⟨by decide, ?_⟩
  rw [read_loop_join]
  decide

/-- C10 (amended): the trim is in range provided the first block read of
the loop succeeds and returns a full 16-byte block: the accumulated
buffer then holds at least 16 bytes, which dominates every
message-start-index a TLV decode can produce (at most 4). -/
theorem c10_trim_in_range (block4 d0 : List Nat) (L msi : Nat)
    (reads : Nat → Option (List Nat))
    (hd : decode_mifare_classic_tlv block4 = some (L, msi))
    (hr : reads 0 = some d0) (hl : 16 ≤ d0.length) :
    msi ≤ (read_loop reads (get_mifare_classic_buffer_size L) 0 0 []).length := by
  have hmsi : msi ≤ 4 := decode_tlv_start_le block4 L msi hd
  have hbs : 16 ≤ get_mifare_classic_buffer_size L := buffer_size_ge_16 L
  rw [read_loop_join]
  obtain ⟨m, hm⟩ : ∃ m,
      (get_mifare_classic_buffer_size L - 0 + 15) / 16 = m + 1 :=
    ⟨(get_mifare_classic_buffer_size L - 0 + 15) / 16 - 1, by omega⟩
  rw [hm]
  simp only [idxList, List.map_cons, List.flatten_cons, List.nil_append, hr,
    Option.getD_some, List.length_append]
  omega

/-- C10 witness: with every block read succeeding with 16 bytes, the
buffer length dominates the start index 2 of a short TLV header. -/
theorem c10_trim_in_range_witness :
    2 ≤ (read_loop (fun _ => some (List.replicate 16 9))
        (get_mifare_classic_buffer_size 5) 0 0 []).length :=
  c10_trim_in_range (0x03 :: 0x05 :: List.replicate 14 0)
    (List.replicate 16 9) 5 2 (fun _ => some (List.replicate 16 9))
    (by decide) rfl (by decide)

/-- C6 (amended): for every command payload of fewer than 255 bytes, the
outbound frame satisfies the claimed invariants: preamble and start code
0x00 0x00 0xFF, length field equal to payload length + 1, length field
plus length checksum ≡ 0 mod 256, direction byte 0xD4 plus payload sum
plus payload checksum ≡ 0 mod 256, and postamble 0x00.  (For payloads of
255 bytes or more the 1-byte length field wraps mod 256, so the
length-field clause needs the bound.) -/
theorem c6_write_command_frame_invariants (data : List Nat)
    (h1 : data.length + 1 < 256) :
    (write_command_frame data).take 3 = [0x00, 0x00, 0xFF] ∧
    nth (write_command_frame data) 3 = data.length + 1 ∧
    (nth (write_command_frame data) 3 + nth (write_command_frame data) 4) % 256 = 0 ∧
    (0xD4 + data.sum + nth (write_command_frame data) (6 + data.length)) % 256 = 0 ∧
    (write_command_frame data).getLast? = some 0x00 := by
  have hf : write_command_frame data =
      0 :: 0 :: 255 :: ((data.length + 1) % 256) ::
        twosComplement ((data.length + 1) % 256) :: 212 ::
        (data ++ [twosComplement (byteSum 0xD4 data), 0]) := rfl
  refine ⟨by rw [hf]; rfl, ?_, ?_, ?_, ?_⟩
  · rw [hf]
    show (data.length + 1) % 256 = data.length + 1
    exact Nat.mod_eq_of_lt h1
  · rw [hf]
    show ((data.length + 1) % 256 + twosComplement ((data.length + 1) % 256)) % 256 = 0
    unfold twosComplement
    omega
  · rw [hf]
    have hc : 6 + data.length = data.length + 6 := by omega
    rw [hc]
    show (0xD4 + data.sum +
      nth (data ++ [twosComplement (byteSum 0xD4 data), 0]) data.length) % 256 = 0
    rw [nth_append_self]
    rw [byteSum_eq]
    unfold twosComplement
    omega
  · rw [hf]
    show (([0, 0, 255, (data.length + 1) % 256,
        twosComplement ((data.length + 1) % 256), 212] ++ data) ++
        [twosComplement (byteSum 0xD4 data), 0]).getLast? = some 0
    rw [getLast?_concat_two]

/-- C6 witness: the invariants instantiated at payload [0x4A, 1, 2]. -/
theorem c6_write_command_frame_invariants_witness :
    (write_command_frame [0x4A, 1, 2]).take 3 = [0x00, 0x00, 0xFF] ∧
    nth (write_command_frame [0x4A, 1, 2]) 3 = ([0x4A, 1, 2] : List Nat).length + 1 :=
  ⟨(c6_write_command_frame_invariants [0x4A, 1, 2] (by decide)).1,
   (c6_write_command_frame_invariants [0x4A, 1, 2] (by decide)).2.1⟩

/-- The element just past a list's length plus one, in a two-element
extension. -/
theorem nth_append_self2 (l : List Nat) (x y : Nat) :
    nth (l ++ [x, y]) (l.length + 1) = y := by
  induction l with
  | nil => rfl
  | cons a t ih => exact ih

/-- Setting the element just past a list, in a two-element extension. -/
theorem set_append_self (l : List Nat) (x y v : Nat) :
    (l ++ [x, y]).set l.length v = l ++ [v, y] := by
  induction l with
  | nil => rfl
  | cons a t ih => exact congrArg (a :: ·) ih

/-- Setting the second element past a list, in a two-element
extension. -/
theorem set_append_self2 (l : List Nat) (x y v : Nat) :
    (l ++ [x, y]).set (l.length + 1) v = l ++ [x, v] := by
  induction l with
  | nil => rfl
  | cons a t ih => exact congrArg (a :: ·) ih

/-- Evaluation of the length probe on a buffer with its first seven
bytes exposed. -/
theorem probe_eval (s a1 a2 a3 a4 a5 a6 : Nat) (rest : List Nat) :
    read_response_length (s :: a1 :: a2 :: a3 :: a4 :: a5 :: a6 :: rest) =
      (if a1 ≠ 0 ∧ a2 ≠ 0 ∧ a3 ≠ 255 then 0
       else if ¬((a4 + a5) % 256 = 0 ∧ a6 = 213) then 0
       else if a4 = 0 then 0 else a4 - 1) := by
  have hlen : ¬ ((s :: a1 :: a2 :: a3 :: a4 :: a5 :: a6 :: rest).length < 7) := by
    simp only [List.length_cons]
    omega
  unfold read_response_length
  rw [if_neg hlen]
  rfl

/-- Evaluation of the response parser on a buffer carrying a valid
length/checksum header, an arbitrary command-echo byte `b7`, payload
`p`, and arbitrary trailing checksum byte `x` and postamble byte `y`. -/
theorem parse_shape (cm s b7 x y : Nat) (p : List Nat)
    (hn : p.length + 2 < 256) :
    read_response cm
        (s :: 0 :: 0 :: 255 :: ((p.length + 2) % 256) ::
          twosComplement ((p.length + 2) % 256) :: 213 :: b7 :: (p ++ [x, y])) =
      (if b7 ≠ cm + 1 then none
       else if x ≠ twosComplement (byteSum 0 (213 :: b7 :: p)) then none
       else if y ≠ 0 then none
       else some p) := by
  have hsum : ((p.length + 2) % 256 + twosComplement ((p.length + 2) % 256)) % 256 = 0 := by
    unfold twosComplement
    omega
  have hlen10 : (s :: 0 :: 0 :: 255 :: ((p.length + 2) % 256) ::
      twosComplement ((p.length + 2) % 256) :: 213 :: b7 :: (p ++ [x, y])).length =
        p.length + 10 := by
    simp only [List.length_cons, List.length_append, List.length_nil]
  have hprobe : read_response_length
      (s :: 0 :: 0 :: 255 :: ((p.length + 2) % 256) ::
        twosComplement ((p.length + 2) % 256) :: 213 :: b7 :: (p ++ [x, y])) =
        p.length + 1 := by
    rw [probe_eval]
    rw [if_neg (fun h => h.1 rfl)]
    rw [if_neg (not_not_intro ⟨hsum, rfl⟩)]
    rw [if_neg (by omega : ¬ ((p.length + 2) % 256 = 0))]
    omega
  simp only [read_response]
  rw [hprobe]
  rw [if_neg (by omega : ¬ (p.length + 1 = 0))]
  rw [if_neg (by rw [hlen10]; omega)]
  have htake : (s :: 0 :: 0 :: 255 :: ((p.length + 2) % 256) ::
      twosComplement ((p.length + 2) % 256) :: 213 :: b7 :: (p ++ [x, y])).take
        (6 + (p.length + 1) + 2 + 1) =
      s :: 0 :: 0 :: 255 :: ((p.length + 2) % 256) ::
        twosComplement ((p.length + 2) % 256) :: 213 :: b7 :: (p ++ [x, y]) := by
    rw [show 6 + (p.length + 1) + 2 + 1 = p.length + 10 by omega, ← hlen10]
    exact List.take_length _
  rw [htake]
  show (if (0:Nat) ≠ 0 ∧ (0:Nat) ≠ 0 ∧ (255:Nat) ≠ 255 then none
        else if ¬(((p.length + 2) % 256 + twosComplement ((p.length + 2) % 256)) % 256 = 0 ∧
                  (213:Nat) = 213 ∧ b7 = cm + 1) then none
        else if nth (p ++ [x, y]) p.length ≠
                twosComplement (byteSum 0 (213 :: b7 :: (p ++ [x, y]).take p.length))
          then none
        else if nth (p ++ [x, y]) (p.length + 1) ≠ 0 then none
        else some ((p ++ [x, y]).take p.length)) = _
  rw [List.take_left, nth_append_self, nth_append_self2]
  rw [if_neg (fun h => h.1 rfl)]
  by_cases hb7 : b7 = cm + 1
  · rw [if_neg (not_not_intro ⟨hsum, rfl, hb7⟩), if_neg (not_not_intro hb7)]
  · rw [if_pos (fun h => hb7 h.2.2), if_pos hb7]

/-- C3 (amended): the framing is invertible in the device→host
direction: for every command and payload (payload small enough for the
1-byte length field), the response parser recovers exactly the payload
from the device→host frame that carries the builder's framing rules with
direction byte 0xD5; and mutating the frame's length, length-checksum,
data-checksum, or postamble byte to any different byte value makes the
parser return `none`.  (As stated over the outbound builder itself the
claim fails — see the counterexample — because the builder stamps
direction byte 0xD4, which the parser rejects.) -/
theorem c3_frame_roundtrip_mutation (c s : Nat) (p : List Nat)
    (hn : p.length + 2 < 256) (hc : c + 1 < 256) :
    read_response c (s :: response_frame c p) = some p ∧
    (∀ i ∈ [3, 4, 7 + p.length, 8 + p.length], ∀ v < 256,
      v ≠ nth (response_frame c p) i →
      read_response c (s :: (response_frame c p).set i v) = none) := by
  have hdcs : response_dcs c p =
      twosComplement (byteSum 0 (213 :: (c + 1) % 256 :: p)) := rfl
  constructor
  · have h := parse_shape c s ((c + 1) % 256) (response_dcs c p) 0 p hn
    rw [if_neg (not_not_intro (Nat.mod_eq_of_lt hc)),
        if_neg (not_not_intro hdcs), if_neg (not_not_intro rfl)] at h
    exact h
  · intro i hi v hv hvne
    have hi' : i = 3 ∨ i = 4 ∨ i = 7 + p.length ∨ i = 8 + p.length := by
      simpa using hi
    rcases hi' with rfl | rfl | rfl | rfl
    · have hv3 : v ≠ (p.length + 2) % 256 := hvne
      have he : (response_frame c p).set 3 v =
          0 :: 0 :: 255 :: v :: twosComplement ((p.length + 2) % 256) :: 213 ::
            ((c + 1) % 256) :: (p ++ [response_dcs c p, 0]) := rfl
      have hne0 : (v + twosComplement ((p.length + 2) % 256)) % 256 ≠ 0 := by
        unfold twosComplement
        omega
      have hprobe0 : read_response_length
          (s :: (response_frame c p).set 3 v) = 0 := by
        rw [he, probe_eval]
        rw [if_neg (fun h => h.1 rfl)]
        rw [if_pos (fun h => hne0 h.1)]
      simp only [read_response]
      rw [hprobe0]
      rfl
    · have hv4 : v ≠ twosComplement ((p.length + 2) % 256) := hvne
      have he : (response_frame c p).set 4 v =
          0 :: 0 :: 255 :: ((p.length + 2) % 256) :: v :: 213 ::
            ((c + 1) % 256) :: (p ++ [response_dcs c p, 0]) := rfl
      have hne0 : ((p.length + 2) % 256 + v) % 256 ≠ 0 := by
        unfold twosComplement at hv4
        omega
      have hprobe0 : read_response_length
          (s :: (response_frame c p).set 4 v) = 0 := by
        rw [he, probe_eval]
        rw [if_neg (fun h => h.1 rfl)]
        rw [if_pos (fun h => hne0 h.1)]
      simp only [read_response]
      rw [hprobe0]
      rfl
    · have hn7 : nth (response_frame c p) (7 + p.length) = response_dcs c p := by
        rw [show 7 + p.length = p.length + 7 by omega]
        show nth (p ++ [response_dcs c p, 0]) p.length = response_dcs c p
        exact nth_append_self p _ _
      rw [hn7] at hvne
      have hset : (response_frame c p).set (7 + p.length) v =
          0 :: 0 :: 255 :: ((p.length + 2) % 256) ::
            twosComplement ((p.length + 2) % 256) :: 213 ::
            ((c + 1) % 256) :: (p ++ [v, 0]) := by
        rw [show 7 + p.length = p.length + 7 by omega]
        show 0 :: 0 :: 255 :: ((p.length + 2) % 256) ::
            twosComplement ((p.length + 2) % 256) :: 213 ::
            ((c + 1) % 256) :: ((p ++ [response_dcs c p, 0]).set p.length v) = _
        rw [set_append_self]
      rw [hset, parse_shape c s ((c + 1) % 256) v 0 p hn]
      rw [if_neg (not_not_intro (Nat.mod_eq_of_lt hc))]
      rw [if_pos (hdcs ▸ hvne)]
    · have hn8 : nth (response_frame c p) (8 + p.length) = 0 := by
        rw [show 8 + p.length = p.length + 8 by omega]
        show nth (p ++ [response_dcs c p, 0]) (p.length + 1) = 0
        exact nth_append_self2 p _ _
      rw [hn8] at hvne
      have hset : (response_frame c p).set (8 + p.length) v =
          0 :: 0 :: 255 :: ((p.length + 2) % 256) ::
            twosComplement ((p.length + 2) % 256) :: 213 ::
            ((c + 1) % 256) :: (p ++ [response_dcs c p, v]) := by
        rw [show 8 + p.length = p.length + 8 by omega]
        show 0 :: 0 :: 255 :: ((p.length + 2) % 256) ::
            twosComplement ((p.length + 2) % 256) :: 213 ::
            ((c + 1) % 256) :: ((p ++ [response_dcs c p, 0]).set (p.length + 1) v) = _
        rw [set_append_self2]
      rw [hset, parse_shape c s ((c + 1) % 256) (response_dcs c p) v p hn]
      rw [if_neg (not_not_intro (Nat.mod_eq_of_lt hc))]
      rw [if_neg (not_not_intro hdcs)]
      rw [if_pos hvne]

/-- C3 witness: the round-trip and a length-field mutation at command
0x4A, status byte 0, payload [0, 1, 2, 3]. -/
theorem c3_frame_roundtrip_mutation_witness :
    read_response 0x4A (0 :: response_frame 0x4A [0, 1, 2, 3]) = some [0, 1, 2, 3] ∧
    read_response 0x4A (0 :: (response_frame 0x4A [0, 1, 2, 3]).set 3 0x07) = none := by
  have h := c3_frame_roundtrip_mutation 0x4A 0 [0, 1, 2, 3] (by decide) (by decide)
  exact ⟨h.1, h.2 3 (by decide) 0x07 (by decide) (by decide)⟩

end PN532
